import Mathlib

/-!
Verification of the custody/correlation core of the Lightweight Vehicle Logger.

The Python modules `blockchain_logger.py`, `sha3_logger.py`, `time_sync.py`,
`multi_agent.py` and `evidence_correlator.py` are shallowly embedded below.
Machine floats are modelled as exact rationals or reals; the composition
`sha3(json.dumps(...))` is modelled as an injective constructor of a free
term algebra (`Digest`, `LogDigest`, `CorrDigest`): distinct preimages are
assumed to give distinct digests (collision-free idealization), and
`json.dumps` is deterministic and injective on the structured values that
occur, so a digest value is represented by its preimage.
-/

/-! ## blockchain_logger.py -/

/-- A SHA3-512 hex digest (or the sentinel string previous-hash).

`Digest.str s` is a plain string used in a hash position (the genesis
sentinel `"0"`).  `Digest.h4 i t d p` is the digest of
`json.dumps({index: i, timestamp: t, data: d, previous_hash: p}, sort_keys=True)` —
the dictionary `Block.__dict__` holds exactly these four keys at the moment
`compute_hash` is called from `Block.__init__` (the `hash` attribute is not
yet set).  `Digest.h5 i t d p h` is the digest of the same dictionary once it
also holds the `hash` key, which is what `compute_hash` hashes on every call
made after `__init__` completed. -/
inductive Digest where
  | str : String → Digest
  | h4 : Nat → ℚ → String → Digest → Digest
  | h5 : Nat → ℚ → String → Digest → Digest → Digest
deriving DecidableEq

/-- A single block, mirroring `Block`'s attributes. -/
structure Block where
  index : Nat
  timestamp : ℚ
  data : String
  previous_hash : Digest
  hash : Digest
deriving DecidableEq

/-- `Block.__init__(index, timestamp, data, previous_hash)`: stores the four
fields and then sets `self.hash = self.compute_hash()`; at that moment
`self.__dict__` has only the four fields, so the stored hash is `Digest.h4`. -/
def Block.init (index : Nat) (timestamp : ℚ) (data : String) (previous_hash : Digest) : Block :=
  ⟨index, timestamp, data, previous_hash, Digest.h4 index timestamp data previous_hash⟩

/-- `Block.compute_hash` as called on a fully initialised block:
`json.dumps(self.__dict__, sort_keys=True)` now serialises all five
attributes, including the stored `hash`. -/
def Block.compute_hash (b : Block) : Digest :=
  Digest.h5 b.index b.timestamp b.data b.previous_hash b.hash

/-- The `Blockchain` class: just the list of blocks. -/
structure Blockchain where
  chain : List Block
deriving DecidableEq

/-- `Blockchain.create_block()`: `Block(0, time.time(), "Starter Block", "0")`;
the wall-clock time is passed explicitly. -/
def Blockchain.create_block (t : ℚ) : Block :=
  Block.init 0 t ("Starter Block") (Digest.str ("0"))

/-- `Blockchain.__init__`: `self.chain = [self.create_block()]`. -/
def Blockchain.mkInit (t : ℚ) : Blockchain :=
  ⟨[Blockchain.create_block t]⟩

/-- `Blockchain.add_block(data)`: reads `self.chain[-1]`, appends
`Block(len(self.chain), time.time(), data, last_block.hash)`.  The empty-chain
case cannot occur for a constructed `Blockchain` (Python would raise
`IndexError`); it is modelled as a no-op. -/
def Blockchain.add_block (bc : Blockchain) (t : ℚ) (data : String) : Blockchain :=
  match bc.chain.getLast? with
  | none => bc
  | some last => ⟨bc.chain ++ [Block.init bc.chain.length t data last.hash]⟩

/-- The loop body of `is_chain_valid`: walks consecutive pairs starting at
index 1, returning false on the first mismatch of either the recomputed hash
or the linkage. -/
def chainValidFrom : Block → List Block → Bool
  | _, [] => true
  | prev, curr :: rest =>
    if curr.hash ≠ curr.compute_hash ∨ curr.previous_hash ≠ prev.hash then false
    else chainValidFrom curr rest

/-- `Blockchain.is_chain_valid()`: `for i in range(1, len(self.chain))`. -/
def Blockchain.is_chain_valid (bc : Blockchain) : Bool :=
  match bc.chain with
  | [] => true
  | b :: rest => chainValidFrom b rest

/-- A ledger built from construction followed by one `add_block` per element
of `ops` (each op carries the `time.time()` value and the payload). -/
def buildChain (t0 : ℚ) (ops : List (ℚ × String)) : Blockchain :=
  ops.foldl (fun bc op => bc.add_block op.1 op.2) (Blockchain.mkInit t0)

/-- In-place tampering of the genesis payload (`chain.chain[0].data = ...`)
without recomputing any hash. -/
def tamper_genesis (bc : Blockchain) (newData : String) : Blockchain :=
  ⟨match bc.chain with
    | [] => []
    | g :: rest => ({ g with data := newData }) :: rest⟩

/-- A block's stored hash is a four-field digest (the shape `Block.__init__`
stores). -/
def Block.hashIsInitShaped (b : Block) : Prop :=
  ∃ i t d p, b.hash = Digest.h4 i t d p

theorem chainValidFrom_cons_false (prev b : Block) (rest : List Block)
    (hb : b.hashIsInitShaped) : chainValidFrom prev (b :: rest) = false := by
  obtain ⟨i, t, d, p, hh⟩ := hb
  have : b.hash ≠ b.compute_hash := by
    rw [hh, Block.compute_hash]
    intro h
    exact Digest.noConfusion h
  simp [chainValidFrom, this]

theorem add_block_chain (bc : Blockchain) (t : ℚ) (d : String) (last : Block)
    (h : bc.chain.getLast? = some last) :
    (bc.add_block t d).chain = bc.chain ++ [Block.init bc.chain.length t d last.hash] := by
  simp [Blockchain.add_block, h]

theorem buildChain_preserves (ops : List (ℚ × String)) :
    ∀ bc : Blockchain, bc.chain ≠ [] →
      (ops.foldl (fun bc op => bc.add_block op.1 op.2) bc).chain.length
          = bc.chain.length + ops.length
      ∧ (ops.foldl (fun bc op => bc.add_block op.1 op.2) bc).chain.head?
          = bc.chain.head?
      ∧ (∀ b ∈ (ops.foldl (fun bc op => bc.add_block op.1 op.2) bc).chain,
          b ∈ bc.chain ∨ b.hashIsInitShaped) := by
  induction ops with
  | nil => intro bc h; exact ⟨by simp, by simp, fun b hb => Or.inl (by simpa using hb)⟩
  | cons op rest ih =>
    intro bc hne
    obtain ⟨last, hlast⟩ := List.getLast?_isSome.2 hne |> Option.isSome_iff_exists.1
    have hstep := add_block_chain bc op.1 op.2 last hlast
    have hne' : (bc.add_block op.1 op.2).chain ≠ [] := by
      rw [hstep]; simp
    obtain ⟨hlen, hhead, hmem⟩ := ih (bc.add_block op.1 op.2) hne'
    refine ⟨?_, ?_, ?_⟩
    · rw [List.foldl_cons, hlen, hstep]; simp; omega
    · rw [List.foldl_cons, hhead, hstep]
      obtain ⟨a, l, hc⟩ := List.exists_cons_of_ne_nil hne
      rw [hc]; simp
    · intro b hb
      rcases hmem b (by rwa [List.foldl_cons] at hb) with h | h
      · rw [hstep] at h
        rcases List.mem_append.1 h with h | h
        · exact Or.inl h
        · right
          simp at h
          exact ⟨bc.chain.length, op.1, op.2, last.hash, by rw [h, Block.init]⟩
      · exact Or.inr h

/-- The chain-linkage relation: the right block's `previous_hash` is the left
block's stored `hash`. -/
def Linked (a b : Block) : Prop := b.previous_hash = a.hash

theorem add_block_linked (bc : Blockchain) (t : ℚ) (d : String)
    (hne : bc.chain ≠ []) (h : List.Chain' Linked bc.chain) :
    List.Chain' Linked (bc.add_block t d).chain := by
  obtain ⟨last, hlast⟩ := Option.isSome_iff_exists.1 (List.getLast?_isSome.2 hne)
  rw [add_block_chain bc t d last hlast]
  refine List.Chain'.append h (List.chain'_singleton _) ?_
  intro x hx y hy
  simp only [List.head?_cons, Option.mem_def, Option.some.injEq] at hy
  rw [hlast, Option.mem_def, Option.some.injEq] at hx
  subst hx hy
  rfl

theorem add_block_ne_nil (bc : Blockchain) (t : ℚ) (d : String)
    (hne : bc.chain ≠ []) : (bc.add_block t d).chain ≠ [] := by
  obtain ⟨last, hlast⟩ := Option.isSome_iff_exists.1 (List.getLast?_isSome.2 hne)
  rw [add_block_chain bc t d last hlast]
  simp

theorem foldl_linked (ops : List (ℚ × String)) :
    ∀ bc : Blockchain, bc.chain ≠ [] → List.Chain' Linked bc.chain →
      List.Chain' Linked ((ops.foldl (fun bc op => bc.add_block op.1 op.2) bc)).chain := by
  induction ops with
  | nil => intro bc _ h; exact h
  | cons op rest ih =>
    intro bc hne h
    rw [List.foldl_cons]
    exact ih _ (add_block_ne_nil bc op.1 op.2 hne)
      (add_block_linked bc op.1 op.2 hne h)

theorem mkInit_chain_ne_nil (t0 : ℚ) : (Blockchain.mkInit t0).chain ≠ [] := by
  simp [Blockchain.mkInit]

/-- Claim C1: the spec (and the repository's own integrity test) expects
`is_chain_valid()` to return true for every untampered ledger built by
construction plus `add_block` calls.  The code violates this for every
non-trivial ledger: `compute_hash` serialises `self.__dict__`, which during
`__init__` lacks the `hash` attribute but during validation contains it, so
the recomputed digest never equals the stored one.  This theorem evaluates
the code: every ledger with at least one appended block is reported invalid. -/
theorem c1_append_then_valid_fails (t0 : ℚ) (op : ℚ × String) (ops : List (ℚ × String)) :
    (buildChain t0 (op :: ops)).is_chain_valid = false := by
  have hbase := buildChain_preserves ops ((Blockchain.mkInit t0).add_block op.1 op.2)
    (add_block_ne_nil _ op.1 op.2 (mkInit_chain_ne_nil t0))
  obtain ⟨hlen, hhead, hmem⟩ := hbase
  have hchain : (buildChain t0 (op :: ops)).chain
      = (ops.foldl (fun bc op => bc.add_block op.1 op.2)
          ((Blockchain.mkInit t0).add_block op.1 op.2)).chain := by
    simp [buildChain, List.foldl_cons]
  -- the final chain has length ≥ 2 and every block's stored hash has the
  -- four-field shape, so the first hash recomputation already fails
  have hstep : ((Blockchain.mkInit t0).add_block op.1 op.2).chain
      = [Blockchain.create_block t0,
         Block.init 1 op.1 op.2 (Blockchain.create_block t0).hash] := by
    simp [Blockchain.add_block, Blockchain.mkInit, List.getLast?]
  have hlen2 : 2 ≤ (buildChain t0 (op :: ops)).chain.length := by
    rw [hchain, hlen, hstep]; simp
  have hshape : ∀ b ∈ (buildChain t0 (op :: ops)).chain, b.hashIsInitShaped := by
    intro b hb
    rw [hchain] at hb
    rcases hmem b hb with h | h
    · rw [hstep] at h
      simp only [List.mem_cons, List.not_mem_nil, or_false] at h
      rcases h with h | h
      · exact ⟨0, t0, "Starter Block", Digest.str ("0"), by rw [h]; rfl⟩
      · exact ⟨1, op.1, op.2, (Blockchain.create_block t0).hash, by rw [h]; rfl⟩
    · exact h
  obtain ⟨g, b1, rest, hc⟩ : ∃ g b1 rest, (buildChain t0 (op :: ops)).chain = g :: b1 :: rest := by
    rcases hl : (buildChain t0 (op :: ops)).chain with _ | ⟨g, _ | ⟨b1, rest⟩⟩
    · rw [hl] at hlen2; simp at hlen2
    · rw [hl] at hlen2; simp at hlen2
    · exact ⟨g, b1, rest, rfl⟩
  rw [Blockchain.is_chain_valid, hc]
  exact chainValidFrom_cons_false g b1 rest (hshape b1 (by rw [hc]; simp))

/-- Claim C2 counterexample: on a genesis-only ledger, overwriting the genesis
payload in place is not detected — `is_chain_valid()` still returns true,
because the validation loop `range(1, len(chain))` is empty. -/
theorem c2_genesis_tamper_undetected :
    (tamper_genesis (Blockchain.mkInit 0) ("EVIL")).is_chain_valid = true := by
  rfl

/-- Claim C2 (amended): altering the genesis payload without recomputing any
hash makes `is_chain_valid()` return false on every ledger with at least one
appended block, but on a genesis-only ledger the alteration is undetected and
`is_chain_valid()` returns true. -/
theorem c2_genesis_tamper_amended (t0 : ℚ) (nd : String) :
    (∀ op ops, (tamper_genesis (buildChain t0 (op :: ops)) nd).is_chain_valid = false)
    ∧ (tamper_genesis (Blockchain.mkInit t0) nd).is_chain_valid = true := by
  constructor
  · intro op ops
    have hbase := buildChain_preserves ops ((Blockchain.mkInit t0).add_block op.1 op.2)
      (add_block_ne_nil _ op.1 op.2 (mkInit_chain_ne_nil t0))
    obtain ⟨hlen, hhead, hmem⟩ := hbase
    have hchain : (buildChain t0 (op :: ops)).chain
        = (ops.foldl (fun bc op => bc.add_block op.1 op.2)
            ((Blockchain.mkInit t0).add_block op.1 op.2)).chain := by
      simp [buildChain, List.foldl_cons]
    have hstep : ((Blockchain.mkInit t0).add_block op.1 op.2).chain
        = [Blockchain.create_block t0,
           Block.init 1 op.1 op.2 (Blockchain.create_block t0).hash] := by
      simp [Blockchain.add_block, Blockchain.mkInit, List.getLast?]
    have hlen2 : 2 ≤ (buildChain t0 (op :: ops)).chain.length := by
      rw [hchain, hlen, hstep]; simp
    have hshape : ∀ b ∈ (buildChain t0 (op :: ops)).chain, b.hashIsInitShaped := by
      intro b hb
      rw [hchain] at hb
      rcases hmem b hb with h | h
      · rw [hstep] at h
        simp only [List.mem_cons, List.not_mem_nil, or_false] at h
        rcases h with h | h
        · exact ⟨0, t0, "Starter Block", Digest.str ("0"), by rw [h]; rfl⟩
        · exact ⟨1, op.1, op.2, (Blockchain.create_block t0).hash, by rw [h]; rfl⟩
      · exact h
    obtain ⟨g, b1, rest, hc⟩ : ∃ g b1 rest,
        (buildChain t0 (op :: ops)).chain = g :: b1 :: rest := by
      rcases hl : (buildChain t0 (op :: ops)).chain with _ | ⟨g, _ | ⟨b1, rest⟩⟩
      · rw [hl] at hlen2; simp at hlen2
      · rw [hl] at hlen2; simp at hlen2
      · exact ⟨g, b1, rest, rfl⟩
    have htam : (tamper_genesis (buildChain t0 (op :: ops)) nd).chain
        = ({ g with data := nd }) :: b1 :: rest := by
      simp [tamper_genesis, hc]
    rw [Blockchain.is_chain_valid, htam]
    exact chainValidFrom_cons_false _ b1 rest (hshape b1 (by rw [hc]; simp))
  · rfl

/-- Claim C2 amended witness. -/
theorem c2_genesis_tamper_amended_witness :
    (tamper_genesis (buildChain 0 [(1, "x")]) ("EVIL")).is_chain_valid = false
    ∧ (tamper_genesis (Blockchain.mkInit 0) ("EVIL")).is_chain_valid = true :=
  ⟨(c2_genesis_tamper_amended 0 ("EVIL")).1 (1, "x") [],
   (c2_genesis_tamper_amended 0 ("EVIL")).2⟩

/-- Claim C3: after any sequence of `add_block` calls the chain has grown by
exactly one block per call (never reordered or truncated), block 0 is the
genesis block with index 0 and sentinel `previous_hash = "0"`, and every
later block's `previous_hash` equals its predecessor's stored `hash`. -/
theorem c3_linkage_invariant (t0 : ℚ) (ops : List (ℚ × String)) :
    (buildChain t0 ops).chain.length = ops.length + 1
    ∧ (∃ g, (buildChain t0 ops).chain.head? = some g ∧ g.index = 0
        ∧ g.previous_hash = Digest.str ("0"))
    ∧ ∀ i : ℕ, ∀ h : i + 1 < (buildChain t0 ops).chain.length,
        ((buildChain t0 ops).chain.get ⟨i + 1, h⟩).previous_hash
          = ((buildChain t0 ops).chain.get ⟨i, by omega⟩).hash := by
  obtain ⟨hlen, hhead, _⟩ := buildChain_preserves ops (Blockchain.mkInit t0)
    (mkInit_chain_ne_nil t0)
  refine ⟨?_, ?_, ?_⟩
  · rw [buildChain, hlen]; simp [Blockchain.mkInit]; omega
  · refine ⟨Blockchain.create_block t0, ?_, rfl, rfl⟩
    rw [buildChain, hhead]; rfl
  · have hchain : List.Chain' Linked (buildChain t0 ops).chain := by
      rw [buildChain]
      exact foldl_linked ops (Blockchain.mkInit t0) (mkInit_chain_ne_nil t0)
        (by rw [Blockchain.mkInit]; exact List.chain'_singleton _)
    intro i h
    exact List.chain'_iff_get.1 hchain i (by omega)

/-- Claim C3 witness: the invariant holds on a concrete two-append ledger. -/
theorem c3_linkage_invariant_witness :
    (buildChain 0 [(1, "a"), (2, "b")]).chain.length = 3
    ∧ ((buildChain 0 [(1, "a"), (2, "b")]).chain.get
        ⟨1, by decide⟩).previous_hash
      = ((buildChain 0 [(1, "a"), (2, "b")]).chain.get ⟨0, by decide⟩).hash := by
  obtain ⟨h1, _, h3⟩ := c3_linkage_invariant 0 [(1, "a"), (2, "b")]
  exact ⟨h1, h3 0 (by rw [h1]; simp)⟩

/-! ## time_sync.py -/

/-- `TimeSyncConfig` dataclass.  `mode` is an `Option` because Python allows
passing `None`; machine floats are exact rationals. -/
structure TimeSyncConfig where
  mode : Option String
  ntp_offset_ms : ℚ
  tsn_precision_us : Int
deriving DecidableEq

/-- The `TimeSynchronizer` class holds the validated config. -/
structure TimeSynchronizer where
  cfg : TimeSyncConfig
deriving DecidableEq

/-- Python's built-in `round`: round to the nearest integer, ties to even
(`Rat.floor` is the mathematical floor, `Rat.floor_def'`). -/
def roundHalfEven (q : ℚ) : Int :=
  if q - q.floor < 1/2 then q.floor
  else if q - q.floor > 1/2 then q.floor + 1
  else if 2 ∣ q.floor then q.floor else q.floor + 1

/-- `str.upper()`, implemented by mapping `Char.toUpper` over the character
list (equivalent to `String.toUpper`, but structurally recursive so that
proofs can evaluate it on literals). -/
def pyUpper (s : String) : String :=
  String.mk (s.data.map Char.toUpper)

/-- `(cfg.mode or "NTP").upper()` — `None` and the empty string are falsy in
Python, so `or` silently replaces them with the default before uppercasing. -/
def effectiveMode (cfg : TimeSyncConfig) : String :=
  pyUpper (match cfg.mode with
   | none => "NTP"
   | some s => if s = "" then ("NTP") else s)

/-- `TimeSynchronizer.__init__`: raises `ValueError` when the effective mode
is not in `{"NTP", "TSN"}`, otherwise stores a fresh config carrying the
uppercased mode. -/
def mkTimeSynchronizer (cfg : TimeSyncConfig) : Except String TimeSynchronizer :=
  if effectiveMode cfg ≠ "NTP" ∧ effectiveMode cfg ≠ "TSN" then
    Except.error ("TimeSynchronizer.mode must be 'NTP' or 'TSN'")
  else
    Except.ok ⟨⟨some (effectiveMode cfg), cfg.ntp_offset_ms, cfg.tsn_precision_us⟩⟩

/-- `TimeSynchronizer.align(t_seconds)`: NTP adds the offset in seconds; the
TSN branch is `us = int(round(t * 1e6)); grid = max(1, int(precision));
us_quant = (us // grid) * grid; return us_quant / 1e6` with Python's `//`
being floor division (`Int.fdiv`). -/
def TimeSynchronizer.align (sync : TimeSynchronizer) (t_seconds : ℚ) : ℚ :=
  if sync.cfg.mode = some ("NTP") then
    t_seconds + sync.cfg.ntp_offset_ms / 1000
  else
    (((roundHalfEven (t_seconds * 1000000)).fdiv (max 1 sync.cfg.tsn_precision_us)
        * max 1 sync.cfg.tsn_precision_us : Int) : ℚ) / 1000000

/-- Claim C4 counterexample: constructing a `TimeSynchronizer` with a `None`
mode does not fail — it silently substitutes the valid default mode NTP. -/
theorem c4_none_mode_defaults :
    mkTimeSynchronizer ⟨none, 0, 1⟩ = Except.ok ⟨⟨some ("NTP"), 0, 1⟩⟩ := by
  rfl

/-- Claim C4 (amended): constructing with a non-empty mode whose uppercasing
lies outside `{NTP, TSN}` fails with the configuration `ValueError`, but a
`None` or empty mode does not fail: construction silently defaults it to
`"NTP"`. -/
theorem c4_mode_validation_amended (s : String) (hs : s ≠ "")
    (h1 : pyUpper s ≠ "NTP") (h2 : pyUpper s ≠ "TSN") (off : ℚ) (p : Int) :
    mkTimeSynchronizer ⟨some s, off, p⟩
        = Except.error ("TimeSynchronizer.mode must be 'NTP' or 'TSN'")
    ∧ mkTimeSynchronizer ⟨none, off, p⟩ = Except.ok ⟨⟨some ("NTP"), off, p⟩⟩
    ∧ mkTimeSynchronizer ⟨some (""), off, p⟩ = Except.ok ⟨⟨some ("NTP"), off, p⟩⟩ := by
  have hm : effectiveMode ⟨some s, off, p⟩ = pyUpper s := by
    simp [effectiveMode, hs]
  have hnone : effectiveMode ⟨none, off, p⟩ = "NTP" := by
    show pyUpper ("NTP") = "NTP"
    decide
  have hempty : effectiveMode ⟨some (""), off, p⟩ = "NTP" := by
    show pyUpper (if ("" : String) = "" then ("NTP") else ("")) = "NTP"
    rw [if_pos rfl]
    decide
  refine ⟨?_, ?_, ?_⟩
  · rw [mkTimeSynchronizer, if_pos (by rw [hm]; exact ⟨h1, h2⟩)]
  · rw [mkTimeSynchronizer, if_neg (by rw [hnone]; simp), hnone]
  · rw [mkTimeSynchronizer, if_neg (by rw [hempty]; simp), hempty]

/-- Claim C4 amended witness: mode "GPS" is rejected, `None` and `""` are
silently defaulted. -/
theorem c4_mode_validation_amended_witness :
    mkTimeSynchronizer ⟨some ("GPS"), 0, 1⟩
        = Except.error ("TimeSynchronizer.mode must be 'NTP' or 'TSN'")
    ∧ mkTimeSynchronizer ⟨none, 0, 1⟩ = Except.ok ⟨⟨some ("NTP"), 0, 1⟩⟩
    ∧ mkTimeSynchronizer ⟨some (""), 0, 1⟩ = Except.ok ⟨⟨some ("NTP"), 0, 1⟩⟩ :=
  c4_mode_validation_amended ("GPS") (by decide) (by decide) (by decide) 0 1

theorem pyUpper_ntp : pyUpper ("NTP") = "NTP" := by decide

/-- Claim C9: in TSN mode with `tsn_precision_us = 10`, every raw time whose
rounded whole-microsecond value lies in `[1230, 1239]` aligns to the same
output: 1230 microseconds expressed in seconds. -/
theorem c9_tsn_grid_floor (sync : TimeSynchronizer) (hm : sync.cfg.mode = some ("TSN"))
    (hp : sync.cfg.tsn_precision_us = 10) (t : ℚ)
    (h1 : 1230 ≤ roundHalfEven (t * 1000000))
    (h2 : roundHalfEven (t * 1000000) ≤ 1239) :
    sync.align t = 1230 / 1000000 := by
  rw [TimeSynchronizer.align, if_neg (by rw [hm]; simp), hp]
  have hq : (roundHalfEven (t * 1000000)).fdiv (max 1 10) * max 1 (10 : Int) = 1230 := by
    set n := roundHalfEven (t * 1000000) with hn
    interval_cases n <;> decide
  rw [hq]
  norm_num

theorem roundHalfEven_at_1234 : roundHalfEven ((1234 / 1000000 : ℚ) * 1000000) = 1234 := by
  have h : ((1234 / 1000000 : ℚ) * 1000000) = 1234 := by norm_num
  rw [h, roundHalfEven]
  have hf : Rat.floor (1234 : ℚ) = 1234 := by decide
  rw [hf]
  norm_num

/-- Claim C9 witness: the raw time 1234 µs (rounded value 1234 ∈ [1230,1239])
aligns to 1230 µs. -/
theorem c9_tsn_grid_floor_witness :
    1230 ≤ roundHalfEven ((1234 / 1000000 : ℚ) * 1000000)
    ∧ roundHalfEven ((1234 / 1000000 : ℚ) * 1000000) ≤ 1239
    ∧ TimeSynchronizer.align ⟨⟨some ("TSN"), 0, 10⟩⟩ (1234 / 1000000) = 1230 / 1000000 :=
  ⟨by rw [roundHalfEven_at_1234]; norm_num,
   by rw [roundHalfEven_at_1234]; norm_num,
   c9_tsn_grid_floor ⟨⟨some ("TSN"), 0, 10⟩⟩ rfl rfl (1234 / 1000000)
     (by rw [roundHalfEven_at_1234]; norm_num)
     (by rw [roundHalfEven_at_1234]; norm_num)⟩

/-! ## sha3_logger.py -/

/-- A JSON value, modelling the dict/str/number payloads passed to
`json.dumps`.  `json.dumps` is deterministic and injective on this datatype,
so a serialized string is represented by the value itself. -/
inductive JValue where
  | jnull : JValue
  | jbool : Bool → JValue
  | jnum : ℚ → JValue
  | jstr : String → JValue
  | jarr : List JValue → JValue
  | jobj : List (String × JValue) → JValue

/-- The serialized `event_data` of `log_event`:
`json.dumps({"timestamp": timestamp, "event": event})`. -/
def eventData (timestamp : ℚ) (event : JValue) : JValue :=
  JValue.jobj [("timestamp", JValue.jnum timestamp), ("event", event)]

/-- A SHA3-512 digest, modelled as the injective image of its preimage
(`sha3_hash(data) = hashlib.sha3_512(data.encode()).hexdigest()`). -/
inductive LogDigest where
  | sha3 : JValue → LogDigest

/-- One line of `log.jsonl`: `{"data": event_data, "sha3": hash_digest}`. -/
structure LogEntry where
  data : JValue
  sha3 : LogDigest

/-- The entry `log_event(event)` appends, with `time.time()` passed
explicitly: serializes `{"timestamp": ..., "event": event}`, hashes it, and
persists both. -/
def mkLogEntry (timestamp : ℚ) (event : JValue) : LogEntry :=
  ⟨eventData timestamp event, LogDigest.sha3 (eventData timestamp event)⟩

/-- `log_event`'s file side effect: one entry appended to the log. -/
def log_event (log : List LogEntry) (timestamp : ℚ) (event : JValue) : List LogEntry :=
  log ++ [mkLogEntry timestamp event]

/-- Claim C5 counterexample: two `log_event` calls with the *same* event but
different wall-clock capture times produce different serialized strings and
different digests — the persisted entry is not a function of the event alone,
because `log_event` embeds `time.time()` in the serialized payload. -/
theorem c5_same_event_different_entries :
    (mkLogEntry 0 JValue.jnull).data ≠ (mkLogEntry 1 JValue.jnull).data
    ∧ (mkLogEntry 0 JValue.jnull).sha3 ≠ (mkLogEntry 1 JValue.jnull).sha3 := by
  constructor
  · intro h
    simp only [mkLogEntry, eventData, JValue.jobj.injEq, List.cons.injEq, Prod.mk.injEq,
      JValue.jnum.injEq] at h
    exact absurd h.1.2 (by norm_num)
  · intro h
    simp only [mkLogEntry, LogDigest.sha3.injEq, eventData, JValue.jobj.injEq,
      List.cons.injEq, Prod.mk.injEq, JValue.jnum.injEq] at h
    exact absurd h.1.2 (by norm_num)

/-- Claim C5 (amended): the persisted entry is a deterministic function of
the event *and* the capture timestamp, and nothing else: two `log_event`
calls produce the same serialized string and digest exactly when both their
events and their `time.time()` values coincide. -/
theorem c5_entry_determined_by_time_and_event (t1 t2 : ℚ) (e1 e2 : JValue) :
    mkLogEntry t1 e1 = mkLogEntry t2 e2 ↔ t1 = t2 ∧ e1 = e2 := by
  constructor
  · intro h
    simp only [mkLogEntry, LogEntry.mk.injEq, eventData, JValue.jobj.injEq,
      List.cons.injEq, Prod.mk.injEq, JValue.jnum.injEq] at h
    exact ⟨h.1.1.2, h.1.2.1.2⟩
  · rintro ⟨rfl, rfl⟩
    rfl

/-! ## multi_agent.py -/

/-- The `AgentState` dataclass. -/
structure AgentState where
  agent_id : String
  role : String
  last_pos : Option (ℝ × ℝ)
  last_heading : Option ℝ

/-- `AgentState(agent_id=aid)` with the dataclass defaults. -/
def AgentState.fresh (aid : String) : AgentState :=
  ⟨aid, "independent", none, none⟩

/-- `MultiAgentManager`: thresholds plus the agent dict.  A Python dict is
modelled as an insertion-ordered association list with unique keys. -/
structure MultiAgentManager where
  prox_threshold : ℝ
  heading_tol : ℝ
  agents : List (String × AgentState)

/-- `MultiAgentManager.__init__(prox_threshold, heading_tol_deg)`:
`math.radians(d) = d·π/180`. -/
noncomputable def mkManager (prox_threshold heading_tol_deg : ℝ) : MultiAgentManager :=
  ⟨prox_threshold, heading_tol_deg * Real.pi / 180, []⟩

/-- `math.atan2(y, x)` (the standard case analysis over `arctan`;
`atan2(0, 0) = 0` as in CPython). -/
noncomputable def atan2 (y x : ℝ) : ℝ :=
  if 0 < x then Real.arctan (y / x)
  else if x < 0 then
    (if 0 ≤ y then Real.arctan (y / x) + Real.pi else Real.arctan (y / x) - Real.pi)
  else
    (if 0 < y then Real.pi / 2 else if y < 0 then -(Real.pi / 2) else 0)

/-- `math.hypot(x, y)`. -/
noncomputable def hypot (x y : ℝ) : ℝ := Real.sqrt (x ^ 2 + y ^ 2)

/-- `MultiAgentManager._dist(a, b) = math.hypot(a[0]-b[0], a[1]-b[1])`. -/
noncomputable def distPoints (a b : ℝ × ℝ) : ℝ := hypot (a.1 - b.1) (a.2 - b.2)

/-- A standardized record as consumed by `update`: every `dict.get` with a
default is modelled by an `Option` field (an absent `position`/`velocity`
sub-dict is the same as both its components being absent). -/
structure StdRecord where
  agent_id : Option String
  pos_x : Option ℝ
  pos_y : Option ℝ
  vel_x : Option ℝ
  vel_y : Option ℝ
  timestamp_ns : Option Int

/-- Python dict lookup (first matching key; keys are unique). -/
def dictGet : List (String × AgentState) → String → Option AgentState
  | [], _ => none
  | p :: rest, k => if p.1 = k then some p.2 else dictGet rest k

/-- Python dict assignment: replace in place when the key is present,
append otherwise (insertion order preserved). -/
def dictSet : List (String × AgentState) → String → AgentState → List (String × AgentState)
  | [], k, v => [(k, v)]
  | p :: rest, k, v => if p.1 = k then (k, v) :: rest else p :: dictSet rest k v

/-- `self.agents[k].role = r` — in-place mutation of the stored object. -/
def dictSetRole : List (String × AgentState) → String → String → List (String × AgentState)
  | [], _, _ => []
  | p :: rest, k, r =>
    if p.1 = k then (p.1, { p.2 with role := r }) :: rest
    else p :: dictSetRole rest k r

/-- `record.get('agent_id', '?')`. -/
def recAid (r : StdRecord) : String := r.agent_id.getD ("?")

/-- `(record.get('position',{}).get('x',0.0), record.get('position',{}).get('y',0.0))`. -/
def recPos (r : StdRecord) : ℝ × ℝ := (r.pos_x.getD 0, r.pos_y.getD 0)

/-- `(record.get('velocity',{}).get('vx',0.0), record.get('velocity',{}).get('vy',0.0))`. -/
def recVel (r : StdRecord) : ℝ × ℝ := (r.vel_x.getD 0, r.vel_y.getD 0)

/-- `head = self._heading(vel[0], vel[1]) = math.atan2(vy, vx)`. -/
noncomputable def recHead (r : StdRecord) : ℝ := atan2 (recVel r).2 (recVel r).1

/-- `s = self._get(aid); s.last_pos, s.last_heading = pos, head`: the agent
map after the unconditional state write. -/
noncomputable def updAgents1 (m : MultiAgentManager) (r : StdRecord) :
    List (String × AgentState) :=
  dictSet m.agents (recAid r)
    { (dictGet m.agents (recAid r)).getD (AgentState.fresh (recAid r)) with
        last_pos := some (recPos r), last_heading := some (recHead r) }

/-- The `close` accumulation loop over `self.agents.items()`: skip the agent
itself and agents without a recorded position/heading (`continue`), then keep
agents passing the proximity and heading tests. -/
noncomputable def closeAgents (aid : String) (pos : ℝ × ℝ) (head : ℝ)
    (prox tol : ℝ) : List (String × AgentState) → List String
  | [] => []
  | p :: rest =>
    if p.1 = aid ∨ p.2.last_pos.isNone ∨ p.2.last_heading.isNone then
      closeAgents aid pos head prox tol rest
    else if distPoints pos (p.2.last_pos.getD (0, 0)) ≤ prox
        ∧ |head - p.2.last_heading.getD 0| ≤ tol then
      p.1 :: closeAgents aid pos head prox tol rest
    else closeAgents aid pos head prox tol rest

/-- The `close` list computed by `update`. -/
noncomputable def updClose (m : MultiAgentManager) (r : StdRecord) : List String :=
  closeAgents (recAid r) (recPos r) (recHead r) m.prox_threshold m.heading_tol
    (updAgents1 m r)

/-- The leader/follower designation loop: `for oid in close`, with
`ov = (0.0, 0.0)` (the neighbour's velocity is not tracked, so its speed is
`os = math.hypot(0.0, 0.0)`), then `if speed >= os` assigns the updating
agent leader and the neighbour follower, else the reverse. -/
noncomputable def assignRoles (aid : String) (speed : ℝ)
    (agents : List (String × AgentState)) (close : List String) :
    List (String × AgentState) :=
  close.foldl (fun acc oid =>
    if speed ≥ hypot 0 0 then
      dictSetRole (dictSetRole acc aid ("leader")) oid ("follower")
    else
      dictSetRole (dictSetRole acc aid ("follower")) oid ("leader")) agents

/-- Stable insertion into a ≤-sorted list (the new element goes after equal
elements). -/
def sortedInsert (x : String) : List String → List String
  | [] => [x]
  | y :: ys => if y ≤ x then y :: sortedInsert x ys else x :: y :: ys

/-- Python `sorted` on a list of strings (stable, and on the distinct ids
that occur simply the sorted list). -/
def pySorted (l : List String) : List String :=
  l.foldl (fun acc x => sortedInsert x acc) []

/-- A `platoon_detected` event dict. -/
structure MAEvent where
  type : String
  participants : List String
  timestamp_ns : Int
deriving DecidableEq

/-- `MultiAgentManager.update(record)`: updates the agent map, computes the
close set, reassigns roles pairwise when any close agent exists
(`leaders = [aid] + close` in loop order), and returns the updated manager
with the emitted events (one `platoon_detected` event, or none). -/
noncomputable def MultiAgentManager.update (m : MultiAgentManager) (r : StdRecord) :
    MultiAgentManager × List MAEvent :=
  if updClose m r = [] then
    (⟨m.prox_threshold, m.heading_tol, updAgents1 m r⟩, [])
  else
    (⟨m.prox_threshold, m.heading_tol,
      assignRoles (recAid r) (hypot (recVel r).1 (recVel r).2) (updAgents1 m r) (updClose m r)⟩,
     [⟨"platoon_detected", pySorted (recAid r :: updClose m r), r.timestamp_ns.getD 0⟩])

theorem dictGet_dictSet_self (l : List (String × AgentState)) (k : String) (v : AgentState) :
    dictGet (dictSet l k v) k = some v := by
  induction l with
  | nil => simp [dictSet, dictGet]
  | cons p rest ih =>
    by_cases h : p.1 = k
    · simp [dictSet, dictGet, h]
    · simp [dictSet, dictGet, h, ih]

theorem dictGet_dictSet_other (l : List (String × AgentState)) (k k' : String)
    (v : AgentState) (h : k ≠ k') : dictGet (dictSet l k' v) k = dictGet l k := by
  induction l with
  | nil => simp [dictSet, dictGet, Ne.symm h]
  | cons p rest ih =>
    by_cases hp : p.1 = k'
    · simp [dictSet, dictGet, hp, Ne.symm h]
    · simp [dictSet, dictGet, hp, ih]

theorem dictGet_dictSetRole_self (l : List (String × AgentState)) (k r : String) :
    dictGet (dictSetRole l k r) k
      = (dictGet l k).map (fun s => { s with role := r }) := by
  induction l with
  | nil => simp [dictSetRole, dictGet]
  | cons p rest ih =>
    by_cases h : p.1 = k
    · simp [dictSetRole, dictGet, h]
    · simp [dictSetRole, dictGet, h, ih]

theorem dictGet_dictSetRole_other (l : List (String × AgentState)) (k k' r : String)
    (h : k ≠ k') : dictGet (dictSetRole l k' r) k = dictGet l k := by
  induction l with
  | nil => simp [dictSetRole, dictGet]
  | cons p rest ih =>
    by_cases hp : p.1 = k'
    · simp [dictSetRole, dictGet, hp, Ne.symm h]
    · simp [dictSetRole, dictGet, hp, ih]

theorem hypot_zero_zero : hypot 0 0 = 0 := by
  rw [hypot]
  norm_num

theorem hypot_nonneg (x y : ℝ) : 0 ≤ hypot x y := Real.sqrt_nonneg _

theorem assignRoles_nil (aid : String) (speed : ℝ) (agents : List (String × AgentState)) :
    assignRoles aid speed agents [] = agents := rfl

theorem assignRoles_cons_any (aid : String) (speed : ℝ) (agents : List (String × AgentState))
    (x : String) (xs : List String) :
    assignRoles aid speed agents (x :: xs)
      = assignRoles aid speed
          (if speed ≥ hypot 0 0 then
            dictSetRole (dictSetRole agents aid ("leader")) x ("follower")
          else dictSetRole (dictSetRole agents aid ("follower")) x ("leader")) xs := by
  by_cases hc : speed ≥ hypot 0 0
  · simp only [assignRoles, List.foldl_cons, if_pos hc]
  · simp only [assignRoles, List.foldl_cons, if_neg hc]

theorem assignRoles_cons (aid : String) (speed : ℝ) (agents : List (String × AgentState))
    (x : String) (xs : List String) (hsp : 0 ≤ speed) :
    assignRoles aid speed agents (x :: xs)
      = assignRoles aid speed
          (dictSetRole (dictSetRole agents aid ("leader")) x ("follower")) xs := by
  rw [assignRoles_cons_any, if_pos (by rw [ge_iff_le, hypot_zero_zero]; exact hsp)]

theorem assignRoles_preserve (aid : String) (speed : ℝ) (k : String) (hk1 : k ≠ aid) :
    ∀ (close : List String) (agents : List (String × AgentState)), k ∉ close →
      dictGet (assignRoles aid speed agents close) k = dictGet agents k := by
  intro close
  induction close with
  | nil => intro agents _; rfl
  | cons x xs ih =>
    intro agents hk2
    have hkx : k ≠ x := fun h => hk2 (h ▸ List.mem_cons_self x xs)
    have hkxs : k ∉ xs := fun h => hk2 (List.mem_cons_of_mem x h)
    rw [assignRoles_cons_any, ih _ hkxs]
    by_cases hc : speed ≥ hypot 0 0
    · rw [if_pos hc, dictGet_dictSetRole_other _ _ _ _ hkx,
        dictGet_dictSetRole_other _ _ _ _ hk1]
    · rw [if_neg hc, dictGet_dictSetRole_other _ _ _ _ hkx,
        dictGet_dictSetRole_other _ _ _ _ hk1]

theorem assignRoles_roles (aid : String) (speed : ℝ) (hsp : 0 ≤ speed) :
    ∀ (close : List String) (agents : List (String × AgentState)), aid ∉ close →
      (close ≠ [] → dictGet (assignRoles aid speed agents close) aid
          = (dictGet agents aid).map (fun s => { s with role := "leader" }))
      ∧ ∀ oid ∈ close, dictGet (assignRoles aid speed agents close) oid
          = (dictGet agents oid).map (fun s => { s with role := "follower" }) := by
  intro close
  induction close with
  | nil =>
    intro agents _
    exact ⟨fun h => absurd rfl h, fun oid h => absurd h (List.not_mem_nil oid)⟩
  | cons x xs ih =>
    intro agents hna
    have hax : aid ≠ x := fun h => hna (h ▸ List.mem_cons_self x xs)
    have haxs : aid ∉ xs := fun h => hna (List.mem_cons_of_mem x h)
    have hih := ih (dictSetRole (dictSetRole agents aid ("leader")) x ("follower")) haxs
    have hstep := assignRoles_cons aid speed agents x xs hsp
    constructor
    · intro _
      rw [hstep]
      rcases eq_or_ne xs [] with hxs | hxs
      · subst hxs
        rw [assignRoles_nil, dictGet_dictSetRole_other _ _ _ _ hax,
          dictGet_dictSetRole_self]
      · rw [hih.1 hxs, dictGet_dictSetRole_other _ _ _ _ hax, dictGet_dictSetRole_self]
        cases dictGet agents aid <;> rfl
    · intro oid hmem
      have hoa : oid ≠ aid := fun h => hna (h ▸ hmem)
      rw [hstep]
      rcases List.mem_cons.1 hmem with rfl | hmemxs
      · by_cases hx : oid ∈ xs
        · rw [hih.2 oid hx, dictGet_dictSetRole_self,
            dictGet_dictSetRole_other _ _ _ _ (Ne.symm hax)]
          cases dictGet agents oid <;> rfl
        · rw [assignRoles_preserve aid speed oid hoa xs _ hx,
            dictGet_dictSetRole_self, dictGet_dictSetRole_other _ _ _ _ (Ne.symm hax)]
      · rw [hih.2 oid hmemxs]
        by_cases hox : oid = x
        · subst hox
          rw [dictGet_dictSetRole_self, dictGet_dictSetRole_other _ _ _ _ (Ne.symm hax)]
          cases dictGet agents oid <;> rfl
        · rw [dictGet_dictSetRole_other _ _ _ _ hox, dictGet_dictSetRole_other _ _ _ _ hoa]

theorem closeAgents_not_self (aid : String) (pos : ℝ × ℝ) (head : ℝ) (prox tol : ℝ) :
    ∀ l : List (String × AgentState), aid ∉ closeAgents aid pos head prox tol l := by
  intro l
  induction l with
  | nil => simp [closeAgents]
  | cons p rest ih =>
    rw [closeAgents]
    by_cases h1 : p.1 = aid ∨ p.2.last_pos.isNone ∨ p.2.last_heading.isNone
    · rw [if_pos h1]; exact ih
    · rw [if_neg h1]
      by_cases h2 : distPoints pos (p.2.last_pos.getD (0, 0)) ≤ prox
          ∧ |head - p.2.last_heading.getD 0| ≤ tol
      · rw [if_pos h2]
        intro hmem
        rcases List.mem_cons.1 hmem with heq | hmem2
        · exact h1 (Or.inl heq.symm)
        · exact ih hmem2
      · rw [if_neg h2]; exact ih

theorem closeAgents_mem_isSome (aid : String) (pos : ℝ × ℝ) (head : ℝ) (prox tol : ℝ)
    (oid : String) :
    ∀ l : List (String × AgentState),
      oid ∈ closeAgents aid pos head prox tol l → (dictGet l oid).isSome := by
  intro l
  induction l with
  | nil => simp [closeAgents]
  | cons p rest ih =>
    intro hmem
    rw [closeAgents] at hmem
    by_cases hpk : p.1 = oid
    · simp [dictGet, hpk]
    · rw [dictGet, if_neg hpk]
      by_cases h1 : p.1 = aid ∨ p.2.last_pos.isNone ∨ p.2.last_heading.isNone
      · rw [if_pos h1] at hmem; exact ih hmem
      · rw [if_neg h1] at hmem
        by_cases h2 : distPoints pos (p.2.last_pos.getD (0, 0)) ≤ prox
            ∧ |head - p.2.last_heading.getD 0| ≤ tol
        · rw [if_pos h2] at hmem
          rcases List.mem_cons.1 hmem with heq | hmem2
          · exact absurd heq.symm hpk
          · exact ih hmem2
        · rw [if_neg h2] at hmem; exact ih hmem

/-- Claim C6 (amended): whenever `update` finds close agents it marks the
*updating* agent leader and every close agent follower, regardless of their
speeds: the neighbour's velocity is never consulted (`ov = (0.0, 0.0)`
hard-codes neighbour speed 0) and `speed >= 0` always holds, so the
higher-recorded-speed agent is not necessarily the leader. -/
theorem c6_updater_always_leader (m : MultiAgentManager) (r : StdRecord)
    (h : updClose m r ≠ []) :
    (∃ s, dictGet (m.update r).1.agents (recAid r) = some s ∧ s.role = "leader")
    ∧ ∀ oid ∈ updClose m r,
        ∃ s, dictGet (m.update r).1.agents oid = some s ∧ s.role = "follower" := by
  have hupd : (m.update r).1.agents
      = assignRoles (recAid r) (hypot (recVel r).1 (recVel r).2)
          (updAgents1 m r) (updClose m r) := by
    rw [MultiAgentManager.update, if_neg h]
  have hna : recAid r ∉ updClose m r := closeAgents_not_self _ _ _ _ _ _
  have hroles := assignRoles_roles (recAid r) (hypot (recVel r).1 (recVel r).2)
    (hypot_nonneg _ _) (updClose m r) (updAgents1 m r) hna
  constructor
  · have hv : dictGet (updAgents1 m r) (recAid r)
        = some ({ (dictGet m.agents (recAid r)).getD (AgentState.fresh (recAid r)) with
            last_pos := some (recPos r), last_heading := some (recHead r) }) := by
      rw [updAgents1]; exact dictGet_dictSet_self _ _ _
    refine ⟨{ ({ (dictGet m.agents (recAid r)).getD (AgentState.fresh (recAid r)) with
        last_pos := some (recPos r), last_heading := some (recHead r) } : AgentState) with
        role := "leader" }, ?_, rfl⟩
    rw [hupd, hroles.1 h, hv]
    rfl
  · intro oid hmem
    obtain ⟨v, hv⟩ := Option.isSome_iff_exists.1
      (closeAgents_mem_isSome _ _ _ _ _ oid _ hmem)
    refine ⟨{ v with role := "follower" }, ?_, rfl⟩
    rw [hupd, hroles.2 oid hmem, hv]
    rfl

/-- Claim C7 (amended): an agent's role is *not* recomputed fresh on every
update.  An `update` call that finds no close agents emits nothing and leaves
every stored role exactly as it was (a newly created agent starts as
"independent"); roles are only ever rewritten when close agents are found, so
an earlier "leader"/"follower" marking persists through close-less updates. -/
theorem c7_no_close_keeps_roles (m : MultiAgentManager) (r : StdRecord)
    (h : updClose m r = []) :
    (m.update r).2 = []
    ∧ ∀ k s, dictGet (m.update r).1.agents k = some s →
        s.role = (match dictGet m.agents k with
                  | some s0 => s0.role
                  | none => "independent") := by
  have hupd : m.update r
      = (⟨m.prox_threshold, m.heading_tol, updAgents1 m r⟩, []) := by
    rw [MultiAgentManager.update, if_pos h]
  rw [hupd]
  refine ⟨rfl, ?_⟩
  intro k s hs
  by_cases hk : k = recAid r
  · rw [hk] at hs ⊢
    rw [updAgents1, dictGet_dictSet_self] at hs
    cases hget : dictGet m.agents (recAid r) with
    | none =>
      rw [hget, Option.getD_none] at hs
      injection hs with hs2
      rw [← hs2]
      rfl
    | some s0 =>
      rw [hget, Option.getD_some] at hs
      injection hs with hs2
      rw [← hs2]
  · rw [updAgents1, dictGet_dictSet_other _ _ _ _ hk] at hs
    rw [hs]

theorem atan2_zero_pos (x : ℝ) (hx : 0 < x) : atan2 0 x = 0 := by
  rw [atan2, if_pos hx, zero_div, Real.arctan_zero]

theorem distPoints_self (p : ℝ × ℝ) : distPoints p p = 0 := by
  rw [distPoints, hypot]
  norm_num

/-- Concrete records for the counterexample runs.  All velocities point along
the positive x-axis, so every heading is exactly `atan2 0 v = 0`. -/
def recB5 : StdRecord := ⟨some ("b"), some 0, some 0, some 5, some 0, some 0⟩

def recA1 : StdRecord := ⟨some ("a"), some 0, some 0, some 1, some 0, some 0⟩

def recA1far : StdRecord := ⟨some ("a"), some 100, some 100, some 1, some 0, some 0⟩

def recNoId : StdRecord := ⟨none, some 0, some 0, some 1, some 0, some 0⟩

/-- A freshly constructed manager with `prox_threshold = 5` and a heading
tolerance of 1 radian. -/
def mEmpty : MultiAgentManager := ⟨5, 1, []⟩

noncomputable def sB0 : AgentState := ⟨"b", "independent", some (0, 0), some 0⟩

noncomputable def sA0 : AgentState := ⟨"a", "independent", some (0, 0), some 0⟩

theorem recHead_recB5 : recHead recB5 = 0 := by
  show atan2 0 5 = 0
  exact atan2_zero_pos 5 (by norm_num)

theorem recHead_recA1 : recHead recA1 = 0 := by
  show atan2 0 1 = 0
  exact atan2_zero_pos 1 (by norm_num)

theorem recHead_recA1far : recHead recA1far = 0 := by
  show atan2 0 1 = 0
  exact atan2_zero_pos 1 (by norm_num)

theorem recHead_recNoId : recHead recNoId = 0 := by
  show atan2 0 1 = 0
  exact atan2_zero_pos 1 (by norm_num)

theorem updAgents1_step1 : updAgents1 mEmpty recB5 = [("b", sB0)] := by
  have hh := recHead_recB5
  have ha : recAid recB5 = "b" := rfl
  have hp : recPos recB5 = (0, 0) := rfl
  rw [updAgents1, ha, hp, hh]
  simp [mEmpty, dictGet, dictSet, AgentState.fresh, sB0]

theorem updClose_step1 : updClose mEmpty recB5 = [] := by
  rw [updClose, updAgents1_step1]
  have ha : recAid recB5 = "b" := rfl
  rw [ha]
  simp [closeAgents]

theorem update_step1 :
    mEmpty.update recB5 = (⟨5, 1, [("b", sB0)]⟩, []) := by
  rw [MultiAgentManager.update, if_pos updClose_step1, updAgents1_step1]
  rfl

noncomputable def sB0f : AgentState := ⟨"b", "follower", some (0, 0), some 0⟩

noncomputable def sA0l : AgentState := ⟨"a", "leader", some (0, 0), some 0⟩

noncomputable def m2run : MultiAgentManager := ⟨5, 1, [("b", sB0f), ("a", sA0l)]⟩

theorem updAgents1_step2 :
    updAgents1 (⟨5, 1, [("b", sB0)]⟩ : MultiAgentManager) recA1 = [("b", sB0), ("a", sA0)] := by
  have hh := recHead_recA1
  have ha : recAid recA1 = "a" := rfl
  have hp : recPos recA1 = (0, 0) := rfl
  rw [updAgents1, ha, hp, hh]
  simp [dictGet, dictSet, AgentState.fresh, sA0, (show ¬("b" : String) = "a" by decide)]

theorem updClose_step2 :
    updClose (⟨5, 1, [("b", sB0)]⟩ : MultiAgentManager) recA1 = ["b"] := by
  have hh := recHead_recA1
  have ha : recAid recA1 = "a" := rfl
  have hp : recPos recA1 = (0, 0) := rfl
  rw [updClose, updAgents1_step2, ha, hp, hh]
  norm_num [closeAgents, sB0, sA0, distPoints_self, (show ¬("b" : String) = "a" by decide)]

theorem pySorted_ab : pySorted ["a", "b"] = ["a", "b"] := by
  have h : ("a" : String) ≤ "b" := by
    simp
    decide
  simp [pySorted, sortedInsert, h]

theorem update_step2 :
    (⟨5, 1, [("b", sB0)]⟩ : MultiAgentManager).update recA1
      = (m2run, [⟨"platoon_detected", ["a", "b"], 0⟩]) := by
  have ha : recAid recA1 = "a" := rfl
  rw [MultiAgentManager.update, updClose_step2, if_neg (by simp), updAgents1_step2, ha,
    assignRoles_cons _ _ _ _ _ (hypot_nonneg _ _), assignRoles_nil, pySorted_ab]
  simp [dictSetRole, sB0, sA0, sB0f, sA0l, m2run, recA1]

/-- Claim C6 counterexample: agent "b" updates with velocity (5,0), then
agent "a" updates at the same position with velocity (1,0).  The close
neighbour "b" has recorded speed 5, strictly greater than the updating
agent's speed 1, yet `update` marks "a" leader and "b" follower — the code
never uses the neighbour's velocity (`ov = (0.0, 0.0)`). -/
theorem c6_speed_ignored_cex :
    hypot (recVel recA1).1 (recVel recA1).2 < hypot (recVel recB5).1 (recVel recB5).2
    ∧ "b" ∈ updClose (mEmpty.update recB5).1 recA1
    ∧ (dictGet ((mEmpty.update recB5).1.update recA1).1.agents ("b")).map AgentState.role
        = some ("follower")
    ∧ (dictGet ((mEmpty.update recB5).1.update recA1).1.agents ("a")).map AgentState.role
        = some ("leader") := by
  have h1 : (mEmpty.update recB5).1 = (⟨5, 1, [("b", sB0)]⟩ : MultiAgentManager) := by
    rw [update_step1]
  refine ⟨?_, ?_, ?_, ?_⟩
  · show hypot 1 0 < hypot 5 0
    rw [hypot, hypot]
    apply Real.sqrt_lt_sqrt (by norm_num)
    norm_num
  · rw [h1, updClose_step2]
    simp
  · rw [h1, update_step2]
    simp [m2run, dictGet, sB0f]
  · rw [h1, update_step2]
    simp [m2run, dictGet, sB0f, sA0l]

/-- Claim C6 amended witness: a concrete update with a non-empty close set;
the updating agent ends leader, the close agent follower. -/
theorem c6_updater_always_leader_witness :
    updClose (⟨5, 1, [("b", sB0)]⟩ : MultiAgentManager) recA1 ≠ []
    ∧ (∃ s, dictGet ((⟨5, 1, [("b", sB0)]⟩ : MultiAgentManager).update recA1).1.agents
        (recAid recA1) = some s ∧ s.role = "leader") :=
  ⟨by rw [updClose_step2]; simp,
   (c6_updater_always_leader (⟨5, 1, [("b", sB0)]⟩ : MultiAgentManager) recA1
     (by rw [updClose_step2]; simp)).1⟩

noncomputable def sA2 : AgentState := ⟨"a", "leader", some (100, 100), some 0⟩

theorem updAgents1_step3 : updAgents1 m2run recA1far = [("b", sB0f), ("a", sA2)] := by
  have hh := recHead_recA1far
  have ha : recAid recA1far = "a" := rfl
  have hp : recPos recA1far = (100, 100) := rfl
  rw [updAgents1, ha, hp, hh]
  simp [m2run, dictGet, dictSet, sB0f, sA0l, sA2]

theorem far_gt : (5 : ℝ) < distPoints (100, 100) (0, 0) := by
  rw [distPoints, hypot, Real.lt_sqrt (by norm_num)]
  norm_num

theorem updClose_step3 : updClose m2run recA1far = [] := by
  have hh := recHead_recA1far
  have ha : recAid recA1far = "a" := rfl
  have hp : recPos recA1far = (100, 100) := rfl
  rw [updClose, updAgents1_step3, ha, hp, hh]
  simp [m2run, closeAgents, sB0f, sA2]
  exact far_gt

/-- Claim C7 counterexample: "b" then "a" update close together ("a" becomes
leader), then "a" updates far away from everyone.  Its most recent update
finds no close agents, yet its role remains "leader" — `update` never resets
a role to "independent". -/
theorem c7_stale_leader_cex :
    updClose ((mEmpty.update recB5).1.update recA1).1 recA1far = []
    ∧ (dictGet (((mEmpty.update recB5).1.update recA1).1.update recA1far).1.agents
        ("a")).map AgentState.role = some ("leader") := by
  have h1 : (mEmpty.update recB5).1 = (⟨5, 1, [("b", sB0)]⟩ : MultiAgentManager) := by
    rw [update_step1]
  have h2 : ((mEmpty.update recB5).1.update recA1).1 = m2run := by
    rw [h1, update_step2]
  refine ⟨by rw [h2, updClose_step3], ?_⟩
  rw [h2, MultiAgentManager.update, if_pos updClose_step3]
  show (dictGet (updAgents1 m2run recA1far) ("a")).map AgentState.role = some ("leader")
  rw [updAgents1_step3]
  simp [dictGet, sB0f, sA2]

/-- Claim C7 amended witness: a single update on an empty tracker finds no
close agents, emits nothing, and the (fresh) agent's role is "independent". -/
theorem c7_no_close_keeps_roles_witness :
    updClose mEmpty recB5 = []
    ∧ (mEmpty.update recB5).2 = []
    ∧ ∀ k s, dictGet (mEmpty.update recB5).1.agents k = some s →
        s.role = (match dictGet mEmpty.agents k with
                  | some s0 => s0.role
                  | none => "independent") :=
  ⟨updClose_step1,
   (c7_no_close_keeps_roles mEmpty recB5 updClose_step1).1,
   (c7_no_close_keeps_roles mEmpty recB5 updClose_step1).2⟩

noncomputable def sQ0 : AgentState := ⟨"?", "independent", some (0, 0), some 0⟩

theorem updAgents1_stepA : updAgents1 mEmpty recA1 = [("a", sA0)] := by
  have hh := recHead_recA1
  have ha : recAid recA1 = "a" := rfl
  have hp : recPos recA1 = (0, 0) := rfl
  rw [updAgents1, ha, hp, hh]
  simp [mEmpty, dictGet, dictSet, AgentState.fresh, sA0]

theorem updClose_stepA : updClose mEmpty recA1 = [] := by
  rw [updClose, updAgents1_stepA]
  have ha : recAid recA1 = "a" := rfl
  rw [ha]
  simp [closeAgents]

theorem update_stepA :
    mEmpty.update recA1 = (⟨5, 1, [("a", sA0)]⟩, []) := by
  rw [MultiAgentManager.update, if_pos updClose_stepA, updAgents1_stepA]
  rfl

theorem updAgents1_stepQ :
    updAgents1 (⟨5, 1, [("a", sA0)]⟩ : MultiAgentManager) recNoId = [("a", sA0), ("?", sQ0)] := by
  have hh := recHead_recNoId
  have ha : recAid recNoId = "?" := rfl
  have hp : recPos recNoId = (0, 0) := rfl
  rw [updAgents1, ha, hp, hh]
  simp [dictGet, dictSet, AgentState.fresh, sQ0, (show ¬("a" : String) = "?" by decide)]

theorem updClose_stepQ :
    updClose (⟨5, 1, [("a", sA0)]⟩ : MultiAgentManager) recNoId = ["a"] := by
  have hh := recHead_recNoId
  have ha : recAid recNoId = "?" := rfl
  have hp : recPos recNoId = (0, 0) := rfl
  rw [updClose, updAgents1_stepQ, ha, hp, hh]
  norm_num [closeAgents, sA0, sQ0, distPoints_self, (show ¬("a" : String) = "?" by decide)]

theorem pySorted_qa : pySorted ["?", "a"] = ["?", "a"] := by
  have h : ("?" : String) ≤ "a" := by
    simp
    decide
  simp [pySorted, sortedInsert, h]

theorem updateQ_events :
    ((⟨5, 1, [("a", sA0)]⟩ : MultiAgentManager).update recNoId).2
      = [⟨"platoon_detected", ["?", "a"], 0⟩] := by
  have ha : recAid recNoId = "?" := rfl
  rw [MultiAgentManager.update, updClose_stepQ, if_neg (by simp), ha]
  simp [pySorted_qa, recNoId]

theorem updAgents1_stepN : updAgents1 mEmpty recNoId = [("?", sQ0)] := by
  have hh := recHead_recNoId
  have ha : recAid recNoId = "?" := rfl
  have hp : recPos recNoId = (0, 0) := rfl
  rw [updAgents1, ha, hp, hh]
  simp [mEmpty, dictGet, dictSet, AgentState.fresh, sQ0]

theorem updClose_stepN : updClose mEmpty recNoId = [] := by
  rw [updClose, updAgents1_stepN]
  have ha : recAid recNoId = "?" := rfl
  rw [ha]
  simp [closeAgents]

theorem update_stepN :
    mEmpty.update recNoId = (⟨5, 1, [("?", sQ0)]⟩, []) := by
  rw [MultiAgentManager.update, if_pos updClose_stepN, updAgents1_stepN]
  rfl

theorem updAgents1_stepN2 :
    updAgents1 (⟨5, 1, [("?", sQ0)]⟩ : MultiAgentManager) recNoId = [("?", sQ0)] := by
  have hh := recHead_recNoId
  have ha : recAid recNoId = "?" := rfl
  have hp : recPos recNoId = (0, 0) := rfl
  rw [updAgents1, ha, hp, hh]
  simp [dictGet, dictSet, sQ0]

theorem updClose_stepN2 :
    updClose (⟨5, 1, [("?", sQ0)]⟩ : MultiAgentManager) recNoId = [] := by
  rw [updClose, updAgents1_stepN2]
  have ha : recAid recNoId = "?" := rfl
  rw [ha]
  simp [closeAgents]

/-- Claim C10: a record without an `agent_id` does not fail: `update` treats
it exactly like a record with the literal id `"?"` (so all id-less records
share the single `AgentState` stored under `"?"`), id-less records take part
in proximity checks as that one agent, and `"?"` can appear as a participant
of an emitted `platoon_detected` event. -/
theorem c10_missing_agent_id :
    (∀ (m : MultiAgentManager) (r : StdRecord), r.agent_id = none →
        m.update r = m.update ({ r with agent_id := some ("?") }))
    ∧ ((mEmpty.update recA1).1.update recNoId).2
        = [⟨"platoon_detected", ["?", "a"], 0⟩]
    ∧ ((mEmpty.update recNoId).1.update recNoId).1.agents = [("?", sQ0)] := by
  refine ⟨?_, ?_, ?_⟩
  · intro m r hr
    have h1 : recAid r = "?" := by rw [recAid, hr]; rfl
    have h2 : recAid ({ r with agent_id := some ("?") }) = "?" := rfl
    have e2 : updAgents1 m r = updAgents1 m ({ r with agent_id := some ("?") }) := by
      rw [updAgents1, updAgents1, h1, h2]
      rfl
    have e1 : updClose m r = updClose m ({ r with agent_id := some ("?") }) := by
      rw [updClose, updClose, e2, h1, h2]
      rfl
    rw [MultiAgentManager.update, MultiAgentManager.update, e1, e2, h1, h2]
    rfl
  · have hfst : (mEmpty.update recA1).1 = (⟨5, 1, [("a", sA0)]⟩ : MultiAgentManager) := by
      rw [update_stepA]
    rw [hfst, updateQ_events]
  · have hfst : (mEmpty.update recNoId).1 = (⟨5, 1, [("?", sQ0)]⟩ : MultiAgentManager) := by
      rw [update_stepN]
    rw [hfst, MultiAgentManager.update, if_pos updClose_stepN2]
    show updAgents1 (⟨5, 1, [("?", sQ0)]⟩ : MultiAgentManager) recNoId = [("?", sQ0)]
    exact updAgents1_stepN2

/-- Claim C10 witness: the id-less record is processed exactly like the same
record with `agent_id = "?"`. -/
theorem c10_missing_agent_id_witness :
    mEmpty.update recNoId = mEmpty.update ({ recNoId with agent_id := some ("?") }) :=
  c10_missing_agent_id.1 mEmpty recNoId rfl

/-! ## evidence_correlator.py -/

/-- A standardized record as consumed by `correlate`: `dict.get` defaults are
modelled with `Option` fields; `record_hash` is the producer's opaque
fingerprint (`r.get("record_hash")`, possibly `None`). -/
structure CRecord where
  timestamp_ns : Option Int
  pos_x : Option ℝ
  pos_y : Option ℝ
  record_hash : Option String

/-- The SHA3-256 digest of the canonical correlation payload
`json.dumps({t_start_ns, t_end_ns, participants, records_hashes}, sort_keys=True)`,
modelled as the injective image of that payload. -/
inductive CorrDigest where
  | sha3 : Int → Int → List String → List (Option String) → CorrDigest
deriving DecidableEq

/-- The `CorrelatedEvent` dataclass. -/
structure CorrelatedEvent where
  t_start_ns : Int
  t_end_ns : Int
  participants : List String
  records : List CRecord
  correlation_hash : CorrDigest

/-- `_distance_xy(a, b)`: 2D distance over the zero-defaulted positions. -/
noncomputable def distanceXY (a b : CRecord) : ℝ :=
  hypot (a.pos_x.getD 0 - b.pos_x.getD 0) (a.pos_y.getD 0 - b.pos_y.getD 0)

/-- Flattening `streams` (a dict in insertion order) with the agent tag. -/
def flattenStreams : List (String × List CRecord) → List (String × CRecord)
  | [] => []
  | (aid, recs) :: rest => recs.map (fun r => (aid, r)) ++ flattenStreams rest

/-- The sort key `x[1].get("timestamp_ns", 0)`. -/
def tsKey (p : String × CRecord) : Int := p.2.timestamp_ns.getD 0

/-- Stable insertion: the new element goes after all elements with key ≤ its
key, so equal keys keep their original relative order. -/
def sortedInsertRec (x : String × CRecord) :
    List (String × CRecord) → List (String × CRecord)
  | [] => [x]
  | y :: ys => if tsKey y ≤ tsKey x then y :: sortedInsertRec x ys else x :: y :: ys

/-- `all_rec.sort(key=...)` — Python's sort is stable, and a stable sort is
unique as a function, so stable insertion sort models it exactly. -/
def stableSortByTs (l : List (String × CRecord)) : List (String × CRecord) :=
  l.foldl (fun acc x => sortedInsertRec x acc) []

/-- The inner `while j < len(all_rec)` scan: break once the next record falls
outside the window, otherwise include it in the bucket when it passes the
spatial gate, and keep scanning. -/
noncomputable def gatherBucket (W : Int) (maxd : ℝ) (r_i : CRecord) (t0 : Int) :
    List (String × CRecord) → List (String × CRecord)
  | [] => []
  | (aid_j, r_j) :: rest =>
    if r_j.timestamp_ns.getD 0 - t0 > W then []
    else if distanceXY r_i r_j ≤ maxd then
      (aid_j, r_j) :: gatherBucket W maxd r_i t0 rest
    else gatherBucket W maxd r_i t0 rest

/-- `min(...)` over the bucket timestamps (the bucket is nonempty). -/
def minTs : List Int → Int
  | [] => 0
  | t :: rest => rest.foldl min t

/-- `max(...)` over the bucket timestamps (the bucket is nonempty). -/
def maxTs : List Int → Int
  | [] => 0
  | t :: rest => rest.foldl max t

/-- The Python set comprehension `{aid for aid, _ in bucket}`: deduplicated
keys (first occurrence kept; `sorted` afterwards makes the set order
irrelevant). -/
def dedupKeys (l : List String) : List String :=
  l.foldl (fun acc x => if x ∈ acc then acc else acc ++ [x]) []

/-- Building the emitted `CorrelatedEvent` from a bucket. -/
def mkCorrEvent (bucket : List (String × CRecord)) : CorrelatedEvent :=
  ⟨minTs (bucket.map (fun p => p.2.timestamp_ns.getD 0)),
   maxTs (bucket.map (fun p => p.2.timestamp_ns.getD 0)),
   pySorted (dedupKeys (bucket.map Prod.fst)),
   bucket.map Prod.snd,
   CorrDigest.sha3 (minTs (bucket.map (fun p => p.2.timestamp_ns.getD 0)))
     (maxTs (bucket.map (fun p => p.2.timestamp_ns.getD 0)))
     (pySorted (dedupKeys (bucket.map Prod.fst)))
     ((bucket.map Prod.snd).map CRecord.record_hash)⟩

/-- The outer sweep `while i < len(all_rec)`: each index starts a bucket of
its own record plus the gathered in-window, in-range records; buckets of
size > 1 emit one event; the start always advances by one record. -/
noncomputable def sweep (W : Int) (maxd : ℝ) : List (String × CRecord) → List CorrelatedEvent
  | [] => []
  | (aid_i, r_i) :: rest =>
    (if ((aid_i, r_i) :: gatherBucket W maxd r_i (r_i.timestamp_ns.getD 0) rest).length > 1
     then [mkCorrEvent ((aid_i, r_i) :: gatherBucket W maxd r_i (r_i.timestamp_ns.getD 0) rest)]
     else [])
    ++ sweep W maxd rest

/-- `correlate(streams, window_ms, max_xy_dist)`. -/
noncomputable def correlate (streams : List (String × List CRecord)) (window_ms : Int)
    (max_xy_dist : ℝ) : List CorrelatedEvent :=
  sweep (window_ms * 1000000) max_xy_dist (stableSortByTs (flattenStreams streams))

/-- The three single-record streams of the C8 scenario. -/
def rA8 : CRecord := ⟨some 0, some 0, some 0, some ("hA")⟩

def rB8 : CRecord := ⟨some 0, some 0, some 0, some ("hB")⟩

def rC8 : CRecord := ⟨some 0, some 1000, some 1000, some ("hC")⟩

theorem dist_A8_B8 : distanceXY rA8 rB8 ≤ 2 := by
  rw [distanceXY]
  simp [rA8, rB8, hypot]

theorem dist_B8_A8 : distanceXY rB8 rA8 ≤ 2 := by
  rw [distanceXY]
  simp [rA8, rB8, hypot]

theorem dist_A8_C8 : ¬(distanceXY rA8 rC8 ≤ 2) := by
  rw [distanceXY, not_le]
  simp only [rA8, rC8, Option.getD_some]
  rw [hypot, Real.lt_sqrt (by norm_num)]
  norm_num

theorem dist_C8_A8 : ¬(distanceXY rC8 rA8 ≤ 2) := by
  rw [distanceXY, not_le]
  simp only [rA8, rC8, Option.getD_some]
  rw [hypot, Real.lt_sqrt (by norm_num)]
  norm_num

theorem dist_B8_C8 : ¬(distanceXY rB8 rC8 ≤ 2) := by
  rw [distanceXY, not_le]
  simp only [rB8, rC8, Option.getD_some]
  rw [hypot, Real.lt_sqrt (by norm_num)]
  norm_num

theorem dist_C8_B8 : ¬(distanceXY rC8 rB8 ≤ 2) := by
  rw [distanceXY, not_le]
  simp only [rB8, rC8, Option.getD_some]
  rw [hypot, Real.lt_sqrt (by norm_num)]
  norm_num

theorem sortABC :
    stableSortByTs (flattenStreams [("a1", [rA8]), ("a2", [rB8]), ("a3", [rC8])])
      = [("a1", rA8), ("a2", rB8), ("a3", rC8)] := by
  simp [flattenStreams, stableSortByTs, sortedInsertRec, tsKey, rA8, rB8, rC8]

theorem pySorted_a1a2 : pySorted ["a1", "a2"] = ["a1", "a2"] := by
  have h12 : ("a1" : String) ≤ "a2" := by
    simp
    decide
  simp [pySorted, sortedInsert, h12]

theorem pySorted_a2a1 : pySorted ["a2", "a1"] = ["a1", "a2"] := by
  have h21 : ¬(("a2" : String) ≤ "a1") := by
    simp
    decide
  simp [pySorted, sortedInsert, h21]

theorem sweepABC :
    sweep 50000000 2 [("a1", rA8), ("a2", rB8), ("a3", rC8)]
      = [⟨0, 0, ["a1", "a2"], [rA8, rB8],
          CorrDigest.sha3 0 0 ["a1", "a2"] [some ("hA"), some ("hB")]⟩] := by
  have hw : ¬((0 : Int) - 0 > 50000000) := by decide
  have tsA : rA8.timestamp_ns.getD 0 = 0 := rfl
  have tsB : rB8.timestamp_ns.getD 0 = 0 := rfl
  have tsC : rC8.timestamp_ns.getD 0 = 0 := rfl
  have hhA : rA8.record_hash = some ("hA") := rfl
  have hhB : rB8.record_hash = some ("hB") := rfl
  simp [sweep, gatherBucket, mkCorrEvent, minTs, maxTs, pySorted_a1a2,
    dedupKeys, dist_A8_B8, dist_A8_C8, dist_B8_C8, hw, tsA, tsB, tsC, hhA, hhB,
    (show ¬("a2" : String) = "a1" by decide)]

theorem sortACB :
    stableSortByTs (flattenStreams [("a1", [rA8]), ("a3", [rC8]), ("a2", [rB8])])
      = [("a1", rA8), ("a3", rC8), ("a2", rB8)] := by
  simp [flattenStreams, stableSortByTs, sortedInsertRec, tsKey, rA8, rB8, rC8]

theorem sortBAC :
    stableSortByTs (flattenStreams [("a2", [rB8]), ("a1", [rA8]), ("a3", [rC8])])
      = [("a2", rB8), ("a1", rA8), ("a3", rC8)] := by
  simp [flattenStreams, stableSortByTs, sortedInsertRec, tsKey, rA8, rB8, rC8]

theorem sortBCA :
    stableSortByTs (flattenStreams [("a2", [rB8]), ("a3", [rC8]), ("a1", [rA8])])
      = [("a2", rB8), ("a3", rC8), ("a1", rA8)] := by
  simp [flattenStreams, stableSortByTs, sortedInsertRec, tsKey, rA8, rB8, rC8]

theorem sortCAB :
    stableSortByTs (flattenStreams [("a3", [rC8]), ("a1", [rA8]), ("a2", [rB8])])
      = [("a3", rC8), ("a1", rA8), ("a2", rB8)] := by
  simp [flattenStreams, stableSortByTs, sortedInsertRec, tsKey, rA8, rB8, rC8]

theorem sortCBA :
    stableSortByTs (flattenStreams [("a3", [rC8]), ("a2", [rB8]), ("a1", [rA8])])
      = [("a3", rC8), ("a2", rB8), ("a1", rA8)] := by
  simp [flattenStreams, stableSortByTs, sortedInsertRec, tsKey, rA8, rB8, rC8]

theorem sweepACB :
    sweep 50000000 2 [("a1", rA8), ("a3", rC8), ("a2", rB8)]
      = [⟨0, 0, ["a1", "a2"], [rA8, rB8],
          CorrDigest.sha3 0 0 ["a1", "a2"] [some ("hA"), some ("hB")]⟩] := by
  have hw : ¬((0 : Int) - 0 > 50000000) := by decide
  have tsA : rA8.timestamp_ns.getD 0 = 0 := rfl
  have tsB : rB8.timestamp_ns.getD 0 = 0 := rfl
  have tsC : rC8.timestamp_ns.getD 0 = 0 := rfl
  have hhA : rA8.record_hash = some ("hA") := rfl
  have hhB : rB8.record_hash = some ("hB") := rfl
  simp [sweep, gatherBucket, mkCorrEvent, minTs, maxTs, pySorted_a1a2,
    dedupKeys, dist_A8_B8, dist_A8_C8, dist_C8_B8, hw, tsA, tsB, tsC, hhA, hhB,
    (show ¬("a2" : String) = "a1" by decide)]

theorem sweepBAC :
    sweep 50000000 2 [("a2", rB8), ("a1", rA8), ("a3", rC8)]
      = [⟨0, 0, ["a1", "a2"], [rB8, rA8],
          CorrDigest.sha3 0 0 ["a1", "a2"] [some ("hB"), some ("hA")]⟩] := by
  have hw : ¬((0 : Int) - 0 > 50000000) := by decide
  have tsA : rA8.timestamp_ns.getD 0 = 0 := rfl
  have tsB : rB8.timestamp_ns.getD 0 = 0 := rfl
  have tsC : rC8.timestamp_ns.getD 0 = 0 := rfl
  have hhA : rA8.record_hash = some ("hA") := rfl
  have hhB : rB8.record_hash = some ("hB") := rfl
  simp [sweep, gatherBucket, mkCorrEvent, minTs, maxTs, pySorted_a2a1,
    dedupKeys, dist_B8_A8, dist_B8_C8, dist_A8_C8, hw, tsA, tsB, tsC, hhA, hhB,
    (show ¬("a1" : String) = "a2" by decide)]

theorem sweepBCA :
    sweep 50000000 2 [("a2", rB8), ("a3", rC8), ("a1", rA8)]
      = [⟨0, 0, ["a1", "a2"], [rB8, rA8],
          CorrDigest.sha3 0 0 ["a1", "a2"] [some ("hB"), some ("hA")]⟩] := by
  have hw : ¬((0 : Int) - 0 > 50000000) := by decide
  have tsA : rA8.timestamp_ns.getD 0 = 0 := rfl
  have tsB : rB8.timestamp_ns.getD 0 = 0 := rfl
  have tsC : rC8.timestamp_ns.getD 0 = 0 := rfl
  have hhA : rA8.record_hash = some ("hA") := rfl
  have hhB : rB8.record_hash = some ("hB") := rfl
  simp [sweep, gatherBucket, mkCorrEvent, minTs, maxTs, pySorted_a2a1,
    dedupKeys, dist_B8_A8, dist_B8_C8, dist_C8_A8, hw, tsA, tsB, tsC, hhA, hhB,
    (show ¬("a1" : String) = "a2" by decide)]

theorem sweepCAB :
    sweep 50000000 2 [("a3", rC8), ("a1", rA8), ("a2", rB8)]
      = [⟨0, 0, ["a1", "a2"], [rA8, rB8],
          CorrDigest.sha3 0 0 ["a1", "a2"] [some ("hA"), some ("hB")]⟩] := by
  have hw : ¬((0 : Int) - 0 > 50000000) := by decide
  have tsA : rA8.timestamp_ns.getD 0 = 0 := rfl
  have tsB : rB8.timestamp_ns.getD 0 = 0 := rfl
  have tsC : rC8.timestamp_ns.getD 0 = 0 := rfl
  have hhA : rA8.record_hash = some ("hA") := rfl
  have hhB : rB8.record_hash = some ("hB") := rfl
  simp [sweep, gatherBucket, mkCorrEvent, minTs, maxTs, pySorted_a1a2,
    dedupKeys, dist_C8_A8, dist_C8_B8, dist_A8_B8, hw, tsA, tsB, tsC, hhA, hhB,
    (show ¬("a2" : String) = "a1" by decide)]

theorem sweepCBA :
    sweep 50000000 2 [("a3", rC8), ("a2", rB8), ("a1", rA8)]
      = [⟨0, 0, ["a1", "a2"], [rB8, rA8],
          CorrDigest.sha3 0 0 ["a1", "a2"] [some ("hB"), some ("hA")]⟩] := by
  have hw : ¬((0 : Int) - 0 > 50000000) := by decide
  have tsA : rA8.timestamp_ns.getD 0 = 0 := rfl
  have tsB : rB8.timestamp_ns.getD 0 = 0 := rfl
  have tsC : rC8.timestamp_ns.getD 0 = 0 := rfl
  have hhA : rA8.record_hash = some ("hA") := rfl
  have hhB : rB8.record_hash = some ("hB") := rfl
  simp [sweep, gatherBucket, mkCorrEvent, minTs, maxTs, pySorted_a2a1,
    dedupKeys, dist_C8_B8, dist_C8_A8, dist_B8_A8, hw, tsA, tsB, tsC, hhA, hhB,
    (show ¬("a1" : String) = "a2" by decide)]

/-- Claim C8: three agents with single records at `timestamp_ns = 0` and
positions (0,0), (0,0), (1000,1000); `correlate` with `window_ms = 50` and
`max_xy_dist = 2.0` emits exactly one CorrelatedEvent whose participants are
exactly the two co-located agents, for every one of the six orders the three
streams can be supplied in; the third agent appears in no emitted event. -/
theorem c8_two_colocated_one_event :
    correlate [("a1", [rA8]), ("a2", [rB8]), ("a3", [rC8])] 50 2
      = [⟨0, 0, ["a1", "a2"], [rA8, rB8],
          CorrDigest.sha3 0 0 ["a1", "a2"] [some ("hA"), some ("hB")]⟩]
    ∧ correlate [("a1", [rA8]), ("a3", [rC8]), ("a2", [rB8])] 50 2
      = [⟨0, 0, ["a1", "a2"], [rA8, rB8],
          CorrDigest.sha3 0 0 ["a1", "a2"] [some ("hA"), some ("hB")]⟩]
    ∧ correlate [("a2", [rB8]), ("a1", [rA8]), ("a3", [rC8])] 50 2
      = [⟨0, 0, ["a1", "a2"], [rB8, rA8],
          CorrDigest.sha3 0 0 ["a1", "a2"] [some ("hB"), some ("hA")]⟩]
    ∧ correlate [("a2", [rB8]), ("a3", [rC8]), ("a1", [rA8])] 50 2
      = [⟨0, 0, ["a1", "a2"], [rB8, rA8],
          CorrDigest.sha3 0 0 ["a1", "a2"] [some ("hB"), some ("hA")]⟩]
    ∧ correlate [("a3", [rC8]), ("a1", [rA8]), ("a2", [rB8])] 50 2
      = [⟨0, 0, ["a1", "a2"], [rA8, rB8],
          CorrDigest.sha3 0 0 ["a1", "a2"] [some ("hA"), some ("hB")]⟩]
    ∧ correlate [("a3", [rC8]), ("a2", [rB8]), ("a1", [rA8])] 50 2
      = [⟨0, 0, ["a1", "a2"], [rB8, rA8],
          CorrDigest.sha3 0 0 ["a1", "a2"] [some ("hB"), some ("hA")]⟩] := by
  have hW : (50 : Int) * 1000000 = 50000000 := by norm_num
  refine ⟨?_, ?_, ?_, ?_, ?_, ?_⟩
  · rw [correlate, hW, sortABC, sweepABC]
  · rw [correlate, hW, sortACB, sweepACB]
  · rw [correlate, hW, sortBAC, sweepBAC]
  · rw [correlate, hW, sortBCA, sweepBCA]
  · rw [correlate, hW, sortCAB, sweepCAB]
  · rw [correlate, hW, sortCBA, sweepCBA]
